import Mathlib

/-!
Verification of the tinystat statistical comparison engine
(github.com/codahale/tinystat).

Embedding conventions:
* `float64` values are idealized as exact rationals (`ℚ`); every arithmetic
  step of the Go code is translated literally over `ℚ`.
* The external gonum / `math` primitives used by `Compare`
  (`distuv.StudentsT.CDF`, `distuv.StudentsT.Quantile`, `distuv.UnitNormal`,
  `math.Sqrt`) are third-party library functions, not code of this repository;
  `Compare` is therefore parametric in them (structure `DistLib`), and the
  theorems assume only the standard analytic facts about them (the t CDF is
  strictly increasing and symmetric, the quantile inverts it, `sqrt` is
  nonnegative / positive on positives).
* Where the surrounding claim exercises a division at a zero denominator the
  IEEE-754 outcome matters (`0/0 = NaN`, `x/0 = ±Inf`); those divisions are
  modelled with `fdiv : ℚ → ℚ → GoFloat`, which keeps the IEEE zero-denominator
  behaviour while staying exact elsewhere.
-/

set_option maxHeartbeats 1000000

namespace Tinystat

/-- A Summary is a statistical summary of a normally distributed data set
(src/tinystat.go, `type Summary struct`): field order N, Mean, Variance as in
the source. -/
structure Summary where
  N : ℚ
  Mean : ℚ
  Variance : ℚ
deriving DecidableEq

/-- One iteration of the Welford loop in `Summarize`
(src/tinystat.go lines 94-98): the state is `(m, m2, count)`, and for the next
value `x` the code runs `delta := x - m; m += delta / float64(n+1);
m2 += delta * (x - m)` where `n` is the 0-based index, so `n+1` is the new
count. -/
def welfordStep : ℚ × ℚ × ℕ → ℚ → ℚ × ℚ × ℕ
  | (m, m2, n), x =>
    let delta := x - m
    let m' := m + delta / ((n : ℚ) + 1)
    (m', m2 + delta * (x - m'), n + 1)

/-- The full Welford loop of `Summarize` over the data, starting from
`m = 0, m2 = 0`. -/
def welfordFold (data : List ℚ) : ℚ × ℚ × ℕ :=
  data.foldl welfordStep (0, 0, 0)

/-- Summarize analyzes the given data set and returns a Summary
(src/tinystat.go lines 90-105): Welford's algorithm for the mean and the
corrected (Bessel) variance `m2 / (len(data) - 1)`. -/
def Summarize (data : List ℚ) : Summary :=
  let s := welfordFold data
  { Mean := s.1
    Variance := s.2.1 / ((data.length : ℚ) - 1)
    N := (data.length : ℚ) }

/-- Modelled from the spec: the naive arithmetic mean `sum(data)/n`
(spec §8, Welford correctness). Spec-side definition, to be compared with the
source-side `Summarize`. -/
def naiveMean (data : List ℚ) : ℚ :=
  data.sum / (data.length : ℚ)

/-- Sum of squared deviations from the naive mean. -/
def sqDevSum (data : List ℚ) : ℚ :=
  (data.map (fun x => (x - naiveMean data) ^ 2)).sum

/-- Modelled from the spec: the naive Bessel-corrected two-pass variance
`sum((x - mean)^2)/(n-1)` (spec §8, Welford correctness). Spec-side
definition, to be compared with the source-side `Summarize`. -/
def naiveVariance (data : List ℚ) : ℚ :=
  sqDevSum data / ((data.length : ℚ) - 1)

/-- A `float64` result that may be non-finite: the value classes IEEE-754
division can produce from finite operands. -/
inductive GoFloat
  | fin (q : ℚ)
  | inf
  | ninf
  | nan
deriving DecidableEq

/-- IEEE-754 division of two finite `float64` values: for a zero denominator
Go yields `+Inf`, `-Inf` or `NaN` depending on the sign of the numerator;
otherwise the exact quotient. -/
def fdiv (x y : ℚ) : GoFloat :=
  if y = 0 then
    if 0 < x then .inf else if x < 0 then .ninf else .nan
  else .fin (x / y)

/-- Whether a `float64` value is finite (neither infinite nor NaN). -/
def GoFloat.isFinite : GoFloat → Bool
  | .fin _ => true
  | _ => false

/-- The IEEE-754 comparison `0 <= v`: false for `NaN` and `-Inf`. -/
def GoFloat.nonneg : GoFloat → Bool
  | .fin q => decide (0 ≤ q)
  | .inf => true
  | .ninf => false
  | .nan => false

/-- The Variance field of `Summarize` with its final division
`m2 / (len(data)-1)` kept at IEEE-754 semantics, so that a zero denominator
(`len(data) = 1`) shows the `0/0 = NaN` the Go code produces. -/
def varianceIEEE (data : List ℚ) : GoFloat :=
  fdiv (welfordFold data).2.1 ((data.length : ℚ) - 1)

/-- The external distribution and math primitives `Compare` delegates to
(gonum `distuv.StudentsT{Mu: 0, Sigma: 1, Nu: ν}.CDF` / `.Quantile`,
`distuv.UnitNormal.CDF` / `.Quantile`, and `math.Sqrt`). They are third-party
library code, so the embedding keeps them as parameters. -/
structure DistLib where
  tCDF : ℚ → ℚ → ℚ
  tQuantile : ℚ → ℚ → ℚ
  normCDF : ℚ → ℚ
  normQuantile : ℚ → ℚ
  sqrt : ℚ → ℚ

/-- The Student's t CDF is strictly increasing in its argument, for every
degrees-of-freedom parameter. -/
def DistLib.TMono (g : DistLib) : Prop :=
  ∀ ν, StrictMono (g.tCDF ν)

/-- The Student's t distribution is symmetric about 0:
`CDF(-x) = 1 - CDF(x)`. -/
def DistLib.TSym (g : DistLib) : Prop :=
  ∀ ν x, g.tCDF ν (-x) = 1 - g.tCDF ν x

/-- The quantile function inverts the CDF on `(0, 1)`. -/
def DistLib.TInv (g : DistLib) : Prop :=
  ∀ ν p, 0 < p → p < 1 → g.tCDF ν (g.tQuantile ν p) = p

/-- The square root of a positive number is positive. -/
def DistLib.SqrtPos (g : DistLib) : Prop :=
  ∀ x, 0 < x → 0 < g.sqrt x

/-- The square root of a nonnegative number is nonnegative. -/
def DistLib.SqrtNonneg (g : DistLib) : Prop :=
  ∀ x, 0 ≤ x → 0 ≤ g.sqrt x

/-- The number of distribution tails used to determine significance
(src/unnamed/part_001 line 127): always a two-tailed test. -/
def tails : ℚ := 2

/-- Difference represents the statistical difference between two Summary
values (src/unnamed/part_001 lines 37-59): field order Effect, EffectSize,
CriticalValue, PValue, Alpha, Beta as in the source. -/
structure Difference where
  Effect : ℚ
  EffectSize : ℚ
  CriticalValue : ℚ
  PValue : ℚ
  Alpha : ℚ
  Beta : ℚ
deriving DecidableEq

/-- Significant returns true if the difference is statistically significant
(src/unnamed/part_001 lines 61-64): `d.Effect > d.CriticalValue`. -/
def Difference.Significant (d : Difference) : Prop :=
  d.Effect > d.CriticalValue

instance (d : Difference) : Decidable d.Significant :=
  inferInstanceAs (Decidable (_ < _))

/-- The Welch-Satterthwaite degrees of freedom exactly as `Compare` computes
them (src/unnamed/part_001 lines 74-77), with `math.Pow(x, 2)` as `x ^ 2`. -/
def nuWelch (a b : Summary) : ℚ :=
  (a.Variance / a.N + b.Variance / b.N) ^ 2 /
    (a.Variance ^ 2 / (a.N ^ 2 * (a.N - 1)) +
      b.Variance ^ 2 / (b.N ^ 2 * (b.N - 1)))

/-- Modelled from the spec: the Welch-Satterthwaite degrees of freedom written
as in spec §4.2 step 2, `(Va/na + Vb/nb)^2 / ((Va/na)^2/(na-1) +
(Vb/nb)^2/(nb-1))`. Spec-side definition, to be compared with the source-side
`nuWelch`. -/
def nuSpecWS (a b : Summary) : ℚ :=
  (a.Variance / a.N + b.Variance / b.N) ^ 2 /
    ((a.Variance / a.N) ^ 2 / (a.N - 1) +
      (b.Variance / b.N) ^ 2 / (b.N - 1))

/-- Compare returns the statistical difference between the two summaries using
a two-tailed Welch's t-test (src/unnamed/part_001 lines 68-123), parametric in
the external distribution primitives `g`. Every intermediate value mirrors one
line of the source: `alpha`, `nu`, `tHyp`, `d`, `s`, `tExp`, `p`, `cv`, `sd`,
`cd`, `z`, `za`, `beta`. -/
def Compare (g : DistLib) (control experiment : Summary) (confidence : ℚ) :
    Difference :=
  let a := control
  let b := experiment
  let alpha := 1 - confidence / 100
  let nu := nuWelch a b
  let tHyp := g.tQuantile nu (1 - alpha / tails)
  let d := |a.Mean - b.Mean|
  let s := g.sqrt (a.Variance / a.N + b.Variance / b.N)
  let tExp := d / s
  let p := g.tCDF nu (-tExp) * tails
  let cv := tHyp * s
  let sd := g.sqrt ((a.Variance + b.Variance) / 2)
  let cd := d / sd
  let z := d / (sd * g.sqrt (1 / a.N + 1 / b.N))
  let za := g.normQuantile (1 - alpha / tails)
  let beta := g.normCDF (z - za) - g.normCDF (-z - za)
  { Effect := d
    EffectSize := cd
    CriticalValue := cv
    PValue := p
    Alpha := alpha
    Beta := beta }

namespace V1

/-- Difference of the earlier tinystat version (src/tinystat.go lines 27-32):
Delta, CriticalValue and their ratios to the control mean. The two ratio
fields are IEEE-754 quotients (`GoFloat`), because the claims exercise them at
a zero control mean. -/
structure Difference where
  Delta : ℚ
  CriticalValue : ℚ
  RelDelta : GoFloat
  RelCriticalValue : GoFloat
deriving DecidableEq

/-- Significant returns true if the difference is statistically significant
(src/tinystat.go lines 35-37): `d.Delta > d.CriticalValue`. -/
def Difference.Significant (d : Difference) : Prop :=
  d.Delta > d.CriticalValue

instance (d : Difference) : Decidable d.Significant :=
  inferInstanceAs (Decidable (_ < _))

/-- Compare of the earlier tinystat version (src/tinystat.go lines 41-71):
Welch's t-test critical value, plus the unguarded divisions
`d / control.Mean` and `cv / control.Mean` for the two relative fields,
modelled with IEEE-754 division. -/
def Compare (g : DistLib) (control experiment : Summary) (confidence : ℚ) :
    Difference :=
  let a := control
  let b := experiment
  let nu := nuWelch a b
  let t := g.tQuantile nu (1 - (1 - confidence / 100) / 2)
  let d := |a.Mean - b.Mean|
  let s := g.sqrt (a.Variance / a.N + b.Variance / b.N)
  let cv := t * s
  { Delta := d
    CriticalValue := cv
    RelDelta := fdiv d control.Mean
    RelCriticalValue := fdiv cv control.Mean }

end V1

/-- A concrete rational witness for the abstract CDF parameter: the strictly
increasing symmetric bijection `x / (2 * (1 + |x|)) + 1/2` from `ℚ` onto
`(0, 1)`. -/
def ratCDF (x : ℚ) : ℚ :=
  x / (2 * (1 + |x|)) + 1 / 2

/-- The exact inverse of `ratCDF` on `(0, 1)`. -/
def ratQuantile (p : ℚ) : ℚ :=
  (2 * p - 1) / (1 - |2 * p - 1|)

/-- A concrete `DistLib` satisfying all the assumed properties: `ratCDF` and
`ratQuantile` for the t distribution (ignoring the degrees of freedom), zero
functions for the normal distribution, and the identity for `sqrt` (which is
nonnegative on nonnegatives and positive on positives as required). -/
def gW : DistLib where
  tCDF := fun _ x => ratCDF x
  tQuantile := fun _ p => ratQuantile p
  normCDF := fun _ => 0
  normQuantile := fun _ => 0
  sqrt := id

lemma sum_map_sq_sub (l : List ℚ) (c : ℚ) :
    (l.map (fun x => (x - c) ^ 2)).sum
      = (l.map (fun x => x ^ 2)).sum - 2 * c * l.sum + l.length * c ^ 2 := by
  induction l with
  | nil => simp
  | cons a l ih =>
      simp only [List.map_cons, List.sum_cons, List.length_cons, ih]
      push_cast
      ring

lemma welfordFold_eq (data : List ℚ) :
    welfordFold data = (naiveMean data, sqDevSum data, data.length) := by
  induction data using List.reverseRecOn with
  | nil => simp [welfordFold, naiveMean, sqDevSum]
  | append_singleton l x ih =>
      rw [welfordFold, List.foldl_append, ← welfordFold, ih]
      rcases eq_or_ne l [] with rfl | hl
      · simp [welfordStep, naiveMean, sqDevSum]
      · have hn0 : 0 < (l.length : ℚ) := by exact_mod_cast List.length_pos.mpr hl
        have hn : ((l.length : ℚ)) ≠ 0 := ne_of_gt hn0
        have hn1 : ((l.length : ℚ) + 1) ≠ 0 := by positivity
        have hmean : naiveMean (l ++ [x]) = (l.sum + x) / ((l.length : ℚ) + 1) := by
          rw [naiveMean]
          simp only [List.sum_append, List.sum_cons, List.sum_nil, add_zero,
            List.length_append, List.length_cons, List.length_nil, zero_add]
          push_cast
          ring_nf
        have hsq2 : sqDevSum (l ++ [x])
            = (l.map (fun y => y ^ 2)).sum + x ^ 2
              - 2 * ((l.sum + x) / ((l.length : ℚ) + 1)) * (l.sum + x)
              + ((l.length : ℚ) + 1) * ((l.sum + x) / ((l.length : ℚ) + 1)) ^ 2 := by
          rw [sqDevSum, sum_map_sq_sub, hmean]
          simp only [List.map_append, List.map_cons, List.map_nil,
            List.sum_append, List.sum_cons, List.sum_nil, add_zero,
            List.length_append, List.length_cons, List.length_nil, zero_add]
          push_cast
          ring_nf
        have hsq1 : sqDevSum l
            = (l.map (fun y => y ^ 2)).sum - 2 * (l.sum / (l.length : ℚ)) * l.sum
              + (l.length : ℚ) * (l.sum / (l.length : ℚ)) ^ 2 := by
          rw [sqDevSum, sum_map_sq_sub, naiveMean]
        simp only [List.foldl_cons, List.foldl_nil, welfordStep]
        simp only [Prod.mk.injEq]
        refine ⟨?_, ?_, by simp⟩
        · rw [naiveMean, hmean]
          field_simp
          ring
        · rw [naiveMean, hsq1, hsq2]
          field_simp
          ring

lemma sqDevSum_nonneg (l : List ℚ) : 0 ≤ sqDevSum l := by
  apply List.sum_nonneg
  intro y hy
  simp only [List.mem_map] at hy
  obtain ⟨z, _, rfl⟩ := hy
  positivity

/-- C2: Summarize, implemented by the single-pass Welford recurrence
`delta = x - mean; mean += delta/i; m2 += delta*(x - mean);
variance = m2/(n-1)`, returns a Mean equal to the naive arithmetic mean
`sum(data)/n` and a Variance equal to the naive Bessel-corrected two-pass
variance `sum((x - mean)^2)/(n-1)`. Proved exactly (over exact arithmetic)
for every finite sequence, in particular for every sequence with at least two
elements. -/
theorem summarize_welford_eq_naive (data : List ℚ) :
    (Summarize data).Mean = naiveMean data
    ∧ (Summarize data).Variance = naiveVariance data := by
  constructor
  · simp [Summarize, welfordFold_eq]
  · simp [Summarize, welfordFold_eq, naiveVariance]

/-- C8 counterexample: `Summarize` does not fail on an empty sequence. Its
return type is `Summary` with no error path, and on `[]` it returns the
Summary with `N = 0`, `Mean = 0` and `Variance = 0 / (0 - 1) = 0` rather than
an `InsufficientData` error. -/
theorem summarize_empty_returns :
    Summarize [] = { N := 0, Mean := 0, Variance := 0 } := by
  simp [Summarize, welfordFold]

/-- C8 (amended): `Summarize` performs no input validation and returns a
Summary for every input, the empty sequence included, always carrying
`N = len(data)`. -/
theorem summarize_total (data : List ℚ) :
    (Summarize data).N = (data.length : ℚ) :=
  rfl

/-- C9 (amended): for every input with at least two elements the claimed
Summary invariant holds: `Variance ≥ 0` (the IEEE division result is the same
finite nonnegative value) and `N ≥ 1`. For a one-element input `N ≥ 1` still
holds but the variance is `0/0 = NaN`, so `Variance ≥ 0` fails there (see the
counterexample). -/
theorem summarize_invariant (data : List ℚ) (h : 2 ≤ data.length) :
    0 ≤ (Summarize data).Variance ∧ 1 ≤ (Summarize data).N
    ∧ varianceIEEE data = GoFloat.fin ((Summarize data).Variance)
    ∧ (varianceIEEE data).nonneg = true := by
  have hlen : (2 : ℚ) ≤ (data.length : ℚ) := by exact_mod_cast h
  have hpos : 0 < (data.length : ℚ) - 1 := by linarith
  have hvar : (Summarize data).Variance
      = sqDevSum data / ((data.length : ℚ) - 1) := by
    simp [Summarize, welfordFold_eq]
  have hnn : 0 ≤ (Summarize data).Variance := by
    rw [hvar]
    exact div_nonneg (sqDevSum_nonneg data) (le_of_lt hpos)
  have hfin : varianceIEEE data = GoFloat.fin ((Summarize data).Variance) := by
    rw [varianceIEEE, fdiv, if_neg (ne_of_gt hpos), hvar, welfordFold_eq]
  refine ⟨hnn, ?_, hfin, ?_⟩
  · have hN : (Summarize data).N = (data.length : ℚ) := rfl
    rw [hN]
    linarith
  · rw [hfin]
    simp only [GoFloat.nonneg, decide_eq_true_eq]
    exact hnn

/-- Witness for C9 at the concrete input `[1, 2, 3]`. -/
theorem summarize_invariant_witness :
    0 ≤ (Summarize [1, 2, 3]).Variance ∧ 1 ≤ (Summarize [1, 2, 3]).N
    ∧ varianceIEEE [1, 2, 3] = GoFloat.fin ((Summarize [1, 2, 3]).Variance)
    ∧ (varianceIEEE [1, 2, 3]).nonneg = true :=
  summarize_invariant [1, 2, 3] (by decide)

/-- C9 counterexample: on the one-element input `[5]` the code divides
`m2 = 0` by `n - 1 = 0`, so the variance is IEEE `0/0 = NaN`, and `NaN ≥ 0`
is false: the claimed invariant `Variance ≥ 0` does not extend to one-element
sequences. -/
theorem summarize_single_variance_nan :
    varianceIEEE [5] = GoFloat.nan ∧ (varianceIEEE [5]).nonneg = false := by
  have h : varianceIEEE [5] = GoFloat.nan := by
    norm_num [varianceIEEE, welfordFold, welfordStep, fdiv]
  exact ⟨h, by rw [h]; rfl⟩

lemma ratCDF_neg (x : ℚ) : ratCDF (-x) = 1 - ratCDF x := by
  simp only [ratCDF, abs_neg]
  ring

lemma ratCDF_strictMono : StrictMono ratCDF := by
  intro x y hxy
  simp only [ratCDF]
  have key : x / (2 * (1 + |x|)) < y / (2 * (1 + |y|)) := by
    rw [div_lt_div_iff₀ (by positivity) (by positivity)]
    rcases abs_cases x with ⟨hx1, hx2⟩ | ⟨hx1, hx2⟩ <;>
      rcases abs_cases y with ⟨hy1, hy2⟩ | ⟨hy1, hy2⟩ <;>
        rw [hx1, hy1] <;> nlinarith
  linarith

lemma ratCDF_ratQuantile (p : ℚ) (h0 : 0 < p) (h1 : p < 1) :
    ratCDF (ratQuantile p) = p := by
  have hu : |2 * p - 1| < 1 := by
    rw [abs_lt]
    constructor <;> linarith
  have h2 : 0 < 1 - |2 * p - 1| := by linarith
  have habs : |ratQuantile p| = |2 * p - 1| / (1 - |2 * p - 1|) := by
    rw [ratQuantile, abs_div, abs_of_pos h2]
  rw [ratCDF, habs, ratQuantile]
  have h2' : (1 : ℚ) - |2 * p - 1| ≠ 0 := ne_of_gt h2
  field_simp

lemma gW_TMono : gW.TMono := fun _ => ratCDF_strictMono

lemma gW_TSym : gW.TSym := fun _ x => ratCDF_neg x

lemma gW_TInv : gW.TInv := fun _ p h0 h1 => ratCDF_ratQuantile p h0 h1

lemma gW_SqrtPos : gW.SqrtPos := fun _ hx => hx

lemma gW_SqrtNonneg : gW.SqrtNonneg := fun _ hx => hx

lemma Compare_Effect (g : DistLib) (a b : Summary) (c : ℚ) :
    (Compare g a b c).Effect = |a.Mean - b.Mean| := rfl

lemma Compare_Alpha (g : DistLib) (a b : Summary) (c : ℚ) :
    (Compare g a b c).Alpha = 1 - c / 100 := rfl

lemma Compare_CriticalValue (g : DistLib) (a b : Summary) (c : ℚ) :
    (Compare g a b c).CriticalValue
      = g.tQuantile (nuWelch a b) (1 - (1 - c / 100) / tails)
        * g.sqrt (a.Variance / a.N + b.Variance / b.N) := rfl

lemma Compare_PValue (g : DistLib) (a b : Summary) (c : ℚ) :
    (Compare g a b c).PValue
      = g.tCDF (nuWelch a b)
          (-(|a.Mean - b.Mean| / g.sqrt (a.Variance / a.N + b.Variance / b.N)))
        * tails := rfl

/-- C3: the degrees of freedom computed by Compare (`nuWelch`, used verbatim
inside `Compare`) equals the Welch-Satterthwaite value of the spec
(`nuSpecWS`); in particular the code's denominator
`Va^2/(na^2*(na-1)) + Vb^2/(nb^2*(nb-1))` equals the spec's denominator
`(Va/na)^2/(na-1) + (Vb/nb)^2/(nb-1)`. Proved unconditionally, hence in
particular for `a.N > 1`, `b.N > 1` and variances not both zero. -/
theorem nu_code_eq_spec (a b : Summary) :
    nuWelch a b = nuSpecWS a b
    ∧ a.Variance ^ 2 / (a.N ^ 2 * (a.N - 1))
        + b.Variance ^ 2 / (b.N ^ 2 * (b.N - 1))
      = (a.Variance / a.N) ^ 2 / (a.N - 1)
        + (b.Variance / b.N) ^ 2 / (b.N - 1) := by
  have hden : ∀ V n : ℚ, V ^ 2 / (n ^ 2 * (n - 1)) = (V / n) ^ 2 / (n - 1) := by
    intro V n
    rw [div_pow, div_div]
  constructor
  · rw [nuWelch, nuSpecWS, hden, hden]
  · rw [hden, hden]

/-- C6: swapping the two summaries leaves the test result unchanged: Effect,
CriticalValue and PValue are symmetric in (control, experiment). Proved for
all summaries and all confidences, hence in particular for valid ones. -/
theorem compare_symmetric (g : DistLib) (a b : Summary) (c : ℚ) :
    (Compare g a b c).Effect = (Compare g b a c).Effect
    ∧ (Compare g a b c).CriticalValue = (Compare g b a c).CriticalValue
    ∧ (Compare g a b c).PValue = (Compare g b a c).PValue := by
  have hnu : nuWelch a b = nuWelch b a := by
    rw [nuWelch, nuWelch]
    ring
  have hd : |a.Mean - b.Mean| = |b.Mean - a.Mean| := abs_sub_comm _ _
  have hv : a.Variance / a.N + b.Variance / b.N
      = b.Variance / b.N + a.Variance / a.N := add_comm _ _
  refine ⟨?_, ?_, ?_⟩
  · rw [Compare_Effect, Compare_Effect, hd]
  · rw [Compare_CriticalValue, Compare_CriticalValue, hnu, hv]
  · rw [Compare_PValue, Compare_PValue, hnu, hd, hv]

/-- C1: for summaries with `N ≥ 2` and positive variances and confidence in
`(0, 100)`, the Difference returned by Compare satisfies: Significant holds
iff `Effect > CriticalValue`, and `Effect > CriticalValue` holds iff
`PValue < Alpha`. The distribution hypotheses are the standard facts about
the Student's t CDF and quantile gonum provides. -/
theorem significant_iff_pvalue_lt_alpha (g : DistLib)
    (hmono : g.TMono) (hsym : g.TSym) (hinv : g.TInv) (hsq : g.SqrtPos)
    (a b : Summary) (hNa : 2 ≤ a.N) (hNb : 2 ≤ b.N)
    (hVa : 0 < a.Variance) (hVb : 0 < b.Variance)
    (c : ℚ) (hc0 : 0 < c) (hc1 : c < 100) :
    ((Compare g a b c).Significant
        ↔ (Compare g a b c).Effect > (Compare g a b c).CriticalValue)
    ∧ ((Compare g a b c).Effect > (Compare g a b c).CriticalValue
        ↔ (Compare g a b c).PValue < (Compare g a b c).Alpha) := by
  refine ⟨Iff.rfl, ?_⟩
  rw [Compare_Effect, Compare_CriticalValue, Compare_PValue, Compare_Alpha]
  simp only [tails]
  set ν := nuWelch a b with hν
  set α := 1 - c / 100 with hα
  have hα0 : 0 < α := by rw [hα]; linarith
  have hα1 : α < 1 := by rw [hα]; linarith
  have hp0 : (0 : ℚ) < 1 - α / 2 := by linarith
  have hp1 : 1 - α / 2 < 1 := by linarith
  have hNa0 : (0 : ℚ) < a.N := by linarith
  have hNb0 : (0 : ℚ) < b.N := by linarith
  have hsum : 0 < a.Variance / a.N + b.Variance / b.N := by positivity
  set s := g.sqrt (a.Variance / a.N + b.Variance / b.N) with hs
  have hspos : 0 < s := hsq _ hsum
  set d := |a.Mean - b.Mean| with hd
  set q := g.tQuantile ν (1 - α / 2) with hq
  have hcq : g.tCDF ν q = 1 - α / 2 := hinv ν _ hp0 hp1
  have hkey : g.tCDF ν (-q) = α / 2 := by
    rw [hsym ν q, hcq]
    ring
  have h1 : d > q * s ↔ q < d / s := by
    rw [gt_iff_lt, ← lt_div_iff₀ hspos]
  have h2 : q < d / s ↔ g.tCDF ν (-(d / s)) < g.tCDF ν (-q) := by
    rw [(hmono ν).lt_iff_lt, neg_lt_neg_iff]
  rw [h1, h2, hkey]
  constructor <;> intro h <;> linarith

/-- Witness for C1 at concrete inputs: `gW`, control `⟨2, 0, 1⟩`, experiment
`⟨2, 1, 1⟩`, confidence 95. -/
theorem significant_iff_pvalue_lt_alpha_witness :
    ((Compare gW ⟨2, 0, 1⟩ ⟨2, 1, 1⟩ 95).Significant
        ↔ (Compare gW ⟨2, 0, 1⟩ ⟨2, 1, 1⟩ 95).Effect
            > (Compare gW ⟨2, 0, 1⟩ ⟨2, 1, 1⟩ 95).CriticalValue)
    ∧ ((Compare gW ⟨2, 0, 1⟩ ⟨2, 1, 1⟩ 95).Effect
            > (Compare gW ⟨2, 0, 1⟩ ⟨2, 1, 1⟩ 95).CriticalValue
        ↔ (Compare gW ⟨2, 0, 1⟩ ⟨2, 1, 1⟩ 95).PValue
            < (Compare gW ⟨2, 0, 1⟩ ⟨2, 1, 1⟩ 95).Alpha) :=
  significant_iff_pvalue_lt_alpha gW gW_TMono gW_TSym gW_TInv gW_SqrtPos
    ⟨2, 0, 1⟩ ⟨2, 1, 1⟩ (by norm_num) (by norm_num) (by norm_num) (by norm_num)
    95 (by norm_num) (by norm_num)

/-- C4: for summaries with `N ≥ 2` and positive variances and confidence in
`(0, 100)`, Compare returns `PValue = 2 * tCDF(-t_observed, nu)` with
`t_observed = |control.Mean - experiment.Mean| / se` and
`se = sqrt(Va/na + Vb/nb)`; and whenever the two means are equal,
`PValue = 1`. -/
theorem pvalue_two_tailed (g : DistLib) (hsym : g.TSym) (_hsq : g.SqrtPos)
    (a b : Summary) (_hNa : 2 ≤ a.N) (_hNb : 2 ≤ b.N)
    (_hVa : 0 < a.Variance) (_hVb : 0 < b.Variance)
    (c : ℚ) (_hc0 : 0 < c) (_hc1 : c < 100) :
    (Compare g a b c).PValue
        = 2 * g.tCDF (nuWelch a b)
            (-(|a.Mean - b.Mean| / g.sqrt (a.Variance / a.N + b.Variance / b.N)))
    ∧ (a.Mean = b.Mean → (Compare g a b c).PValue = 1) := by
  have hcdf0 : g.tCDF (nuWelch a b) 0 = 1 / 2 := by
    have h := hsym (nuWelch a b) 0
    rw [neg_zero] at h
    linarith
  constructor
  · rw [Compare_PValue]
    simp only [tails]
    ring
  · intro hmean
    rw [Compare_PValue, hmean, sub_self, abs_zero, zero_div, neg_zero, hcdf0]
    simp only [tails]
    norm_num

/-- Witness for C4 at concrete inputs with equal means: `gW`, control
`⟨2, 3, 1⟩`, experiment `⟨2, 3, 2⟩`, confidence 50. -/
theorem pvalue_two_tailed_witness :
    (Compare gW ⟨2, 3, 1⟩ ⟨2, 3, 2⟩ 50).PValue
        = 2 * gW.tCDF (nuWelch ⟨2, 3, 1⟩ ⟨2, 3, 2⟩)
            (-(|(⟨2, 3, 1⟩ : Summary).Mean - (⟨2, 3, 2⟩ : Summary).Mean|
              / gW.sqrt ((⟨2, 3, 1⟩ : Summary).Variance / (⟨2, 3, 1⟩ : Summary).N
                  + (⟨2, 3, 2⟩ : Summary).Variance / (⟨2, 3, 2⟩ : Summary).N)))
    ∧ ((⟨2, 3, 1⟩ : Summary).Mean = (⟨2, 3, 2⟩ : Summary).Mean
        → (Compare gW ⟨2, 3, 1⟩ ⟨2, 3, 2⟩ 50).PValue = 1) :=
  pvalue_two_tailed gW gW_TSym gW_SqrtPos ⟨2, 3, 1⟩ ⟨2, 3, 2⟩
    (by norm_num) (by norm_num) (by norm_num) (by norm_num)
    50 (by norm_num) (by norm_num)

/-- C5: comparing a valid Summary with itself gives `Effect = 0` and an
insignificant result, for any confidence in `(0, 100)`. -/
theorem compare_self_null (g : DistLib)
    (hmono : g.TMono) (hsym : g.TSym) (hinv : g.TInv) (hsq : g.SqrtNonneg)
    (s : Summary) (hN : 2 ≤ s.N) (hV : 0 ≤ s.Variance)
    (c : ℚ) (hc0 : 0 < c) (hc1 : c < 100) :
    (Compare g s s c).Effect = 0 ∧ ¬(Compare g s s c).Significant := by
  have heff : (Compare g s s c).Effect = 0 := by
    rw [Compare_Effect, sub_self, abs_zero]
  refine ⟨heff, fun hcon => ?_⟩
  have hcon' : (Compare g s s c).CriticalValue < (Compare g s s c).Effect := hcon
  rw [heff, Compare_CriticalValue] at hcon'
  simp only [tails] at hcon'
  have hp0 : (0 : ℚ) < 1 - (1 - c / 100) / 2 := by linarith
  have hp1 : 1 - (1 - c / 100) / 2 < 1 := by linarith
  have hhalf : (1 : ℚ) / 2 < 1 - (1 - c / 100) / 2 := by linarith
  have hN0 : (0 : ℚ) < s.N := by linarith
  have harg : 0 ≤ s.Variance / s.N + s.Variance / s.N := by positivity
  have hsnn : 0 ≤ g.sqrt (s.Variance / s.N + s.Variance / s.N) := hsq _ harg
  set ν := nuWelch s s with hν
  have hcdf0 : g.tCDF ν 0 = 1 / 2 := by
    have h := hsym ν 0
    rw [neg_zero] at h
    linarith
  have hcq : g.tCDF ν (g.tQuantile ν (1 - (1 - c / 100) / 2))
      = 1 - (1 - c / 100) / 2 := hinv ν _ hp0 hp1
  have hqpos : 0 < g.tQuantile ν (1 - (1 - c / 100) / 2) := by
    refine (hmono ν).lt_iff_lt.mp ?_
    rw [hcdf0, hcq]
    exact hhalf
  have : 0 ≤ g.tQuantile ν (1 - (1 - c / 100) / 2)
      * g.sqrt (s.Variance / s.N + s.Variance / s.N) :=
    mul_nonneg hqpos.le hsnn
  linarith

/-- Witness for C5 at concrete inputs: `gW`, Summary `⟨2, 1, 1⟩`,
confidence 95. -/
theorem compare_self_null_witness :
    (Compare gW ⟨2, 1, 1⟩ ⟨2, 1, 1⟩ 95).Effect = 0
    ∧ ¬(Compare gW ⟨2, 1, 1⟩ ⟨2, 1, 1⟩ 95).Significant :=
  compare_self_null gW gW_TMono gW_TSym gW_TInv gW_SqrtNonneg
    ⟨2, 1, 1⟩ (by norm_num) (by norm_num) 95 (by norm_num) (by norm_num)

/-- C7 counterexample: Compare does not validate its inputs. At the
degenerate input control = experiment with `n = 1` (well below the claimed
minimum of 2) and confidence 95, it returns a fully populated Difference
rather than failing with an error; there is no error path in the code (its
return type is `Difference`). The same code path also runs for any
out-of-range confidence. -/
theorem compare_degenerate_returns :
    Compare gW ⟨1, 5, 0⟩ ⟨1, 7, 0⟩ 95
      = { Effect := 2, EffectSize := 0, CriticalValue := 0, PValue := 1,
          Alpha := 1 / 20, Beta := 0 } := by
  norm_num [Compare, nuWelch, gW, ratCDF, ratQuantile, tails]

/-- C7 (amended): Compare performs no input validation and never produces an
error value: for every input, including confidence outside `(0, 100)` and
summaries with `n < 2`, it returns the Difference built from its defining
formulas. -/
theorem compare_total (g : DistLib) (a b : Summary) (c : ℚ) :
    Compare g a b c =
      { Effect := |a.Mean - b.Mean|
        EffectSize := |a.Mean - b.Mean|
            / g.sqrt ((a.Variance + b.Variance) / 2)
        CriticalValue := g.tQuantile (nuWelch a b) (1 - (1 - c / 100) / tails)
            * g.sqrt (a.Variance / a.N + b.Variance / b.N)
        PValue := g.tCDF (nuWelch a b)
            (-(|a.Mean - b.Mean|
                / g.sqrt (a.Variance / a.N + b.Variance / b.N))) * tails
        Alpha := 1 - c / 100
        Beta := g.normCDF (|a.Mean - b.Mean|
              / (g.sqrt ((a.Variance + b.Variance) / 2)
                  * g.sqrt (1 / a.N + 1 / b.N))
              - g.normQuantile (1 - (1 - c / 100) / tails))
          - g.normCDF (-(|a.Mean - b.Mean|
              / (g.sqrt ((a.Variance + b.Variance) / 2)
                  * g.sqrt (1 / a.N + 1 / b.N)))
              - g.normQuantile (1 - (1 - c / 100) / tails)) } :=
  rfl

/-- C10: in the earlier tinystat version, RelDelta and RelCriticalValue are
the unguarded IEEE quotients `Delta / control.Mean` and
`CriticalValue / control.Mean`; when `control.Mean = 0` the two relative
fields are not finite (infinite or NaN), while Delta, CriticalValue and
Significant are computed by the same mean-independent formulas as always. -/
theorem rel_fields_unguarded (g : DistLib) (a b : Summary) (c : ℚ) :
    (V1.Compare g a b c).RelDelta
        = fdiv (V1.Compare g a b c).Delta a.Mean
    ∧ (V1.Compare g a b c).RelCriticalValue
        = fdiv (V1.Compare g a b c).CriticalValue a.Mean
    ∧ (a.Mean = 0 →
        (V1.Compare g a b c).RelDelta.isFinite = false
        ∧ (V1.Compare g a b c).RelCriticalValue.isFinite = false
        ∧ (V1.Compare g a b c).Delta = |a.Mean - b.Mean|
        ∧ (V1.Compare g a b c).CriticalValue
            = g.tQuantile (nuWelch a b) (1 - (1 - c / 100) / 2)
              * g.sqrt (a.Variance / a.N + b.Variance / b.N)
        ∧ ((V1.Compare g a b c).Significant
            ↔ (V1.Compare g a b c).Delta
                > (V1.Compare g a b c).CriticalValue)) := by
  have hfin : ∀ x : ℚ, (fdiv x 0).isFinite = false := by
    intro x
    rw [fdiv, if_pos rfl]
    split_ifs <;> rfl
  refine ⟨rfl, rfl, fun h => ⟨?_, ?_, rfl, rfl, Iff.rfl⟩⟩
  · show (fdiv |a.Mean - b.Mean| a.Mean).isFinite = false
    rw [h]
    exact hfin _
  · show (fdiv (g.tQuantile (nuWelch a b) (1 - (1 - c / 100) / 2)
        * g.sqrt (a.Variance / a.N + b.Variance / b.N)) a.Mean).isFinite = false
    rw [h]
    exact hfin _

/-- Witness for C10 at concrete inputs with a zero control mean: `gW`,
control `⟨4, 0, 1⟩`, experiment `⟨4, 1, 1⟩`, confidence 95. -/
theorem rel_fields_unguarded_witness :
    (V1.Compare gW ⟨4, 0, 1⟩ ⟨4, 1, 1⟩ 95).RelDelta.isFinite = false
    ∧ (V1.Compare gW ⟨4, 0, 1⟩ ⟨4, 1, 1⟩ 95).RelCriticalValue.isFinite
        = false :=
  ⟨((rel_fields_unguarded gW ⟨4, 0, 1⟩ ⟨4, 1, 1⟩ 95).2.2 rfl).1,
    ((rel_fields_unguarded gW ⟨4, 0, 1⟩ ⟨4, 1, 1⟩ 95).2.2 rfl).2.1⟩

end Tinystat
